import Mathlib

/-!
Verification of the announcement filtering-and-ranking engine of the
schoolconnect_ai_backend repository.

The Lean definitions below are a shallow embedding of
`src/ai_analysis/tools/airtable_tool.py` (the `AirtableTool` methods
`get_all_announcements`, `combined_filter_announcements`, `_filter_by_sender`,
`_filter_by_date`, `_filter_by_month`, `_filter_by_date_range`,
`_parse_sent_time`, `_search_and_rank_by_text`, `_calculate_relevance_score`)
and `src/utils/date_utils.py` (`DateUtils.parse_date_time`,
`parse_natural_language_date`, `get_date_range`, `extract_date_time_range`).

Python strings are modelled as `List Char`; Python `datetime` values as a
civil-field record carrying an optional UTC-offset (`tz = none` models a
timezone-naive value); fractional relevance scores as `ℚ`; code paths that can
raise an exception as `Except Str`.  `datetime.now()` is passed in explicitly
as a parameter `now`.
-/

abbrev Str := List Char

deriving instance DecidableEq for Except

/-- `String` literal to `List Char` (model of a Python string literal). -/
def strL (s : String) : Str := s.toList

/-- Python whitespace (the `\s` class / `str.split` separators, ASCII range). -/
def isWS (c : Char) : Bool :=
  c.toNat = 32 || c.toNat = 9 || c.toNat = 10 || c.toNat = 13 ||
  c.toNat = 11 || c.toNat = 12

def isDigit (c : Char) : Bool := 48 ≤ c.toNat && c.toNat ≤ 57

def digitVal (c : Char) : Nat := c.toNat - 48

/-- Model of Python `str.lower()` (ASCII case folding). -/
def lowerStr (s : Str) : Str := s.map Char.toLower

/-- Model of Python `str.strip()`. -/
def stripStr (s : Str) : Str :=
  ((s.dropWhile isWS).reverse.dropWhile isWS).reverse

/-- Model of the Python substring test `needle in hay`: `prefMatchB` checks a
literal prefix. An empty needle is a prefix of everything, as in Python. -/
def prefMatchB : Str → Str → Bool
  | [], _ => true
  | _ :: _, [] => false
  | a :: as, b :: bs => a == b && prefMatchB as bs

/-- Model of Python `needle in hay` (substring containment). -/
def hasSub (hay needle : Str) : Bool :=
  match hay with
  | [] => prefMatchB needle []
  | _ :: t => prefMatchB needle hay || hasSub t needle

/-- Model of Python `str.split()` (split on whitespace runs, drop empties):
accumulator variant, `acc` holds the current word reversed. -/
def splitWSAux : Str → Str → List Str
  | [], acc => if acc = [] then [] else [acc.reverse]
  | c :: cs, acc =>
    if isWS c then
      if acc = [] then splitWSAux cs [] else acc.reverse :: splitWSAux cs []
    else splitWSAux cs (c :: acc)

def splitWS (s : Str) : List Str := splitWSAux s []

/-- Model of Python `' '.join(words)`. -/
def joinSp (ws : List Str) : Str := List.intercalate (strL " ") ws

/-! ## Civil calendar arithmetic (model of Python `datetime`) -/

/-- Days from the civil epoch 1970-01-01 (Howard Hinnant's algorithm, as used
to model `datetime` ordering and `timedelta` arithmetic). -/
def daysFromCivil (y : Int) (m d : Nat) : Int :=
  let y' : Int := if m ≤ 2 then y - 1 else y
  let era : Int := (if 0 ≤ y' then y' else y' - 399) / 400
  let yoe : Int := y' - era * 400
  let mp : Int := ((m : Int) + 9) % 12
  let doy : Int := (153 * mp + 2) / 5 + (d : Int) - 1
  let doe : Int := yoe * 365 + yoe / 4 - yoe / 100 + doy
  era * 146097 + doe - 719468

/-- Inverse of `daysFromCivil`. -/
def civilFromDays (z0 : Int) : Int × Nat × Nat :=
  let z : Int := z0 + 719468
  let era : Int := (if 0 ≤ z then z else z - 146096) / 146097
  let doe : Int := z - era * 146097
  let yoe : Int := (doe - doe / 1460 + doe / 36524 - doe / 146096) / 365
  let y : Int := yoe + era * 400
  let doy : Int := doe - (365 * yoe + yoe / 4 - yoe / 100)
  let mp : Int := (5 * doy + 2) / 153
  let d : Int := doy - (153 * mp + 2) / 5 + 1
  let m : Int := if mp < 10 then mp + 3 else mp - 9
  (if m ≤ 2 then y + 1 else y, m.toNat, d.toNat)

/-- `calendar.monthrange(y, m)[1]`: number of days in a month. -/
def daysInMonth (y : Int) (m : Nat) : Nat :=
  if m = 2 then
    if y % 4 = 0 && (y % 100 ≠ 0 || y % 400 = 0) then 29 else 28
  else if m = 4 || m = 6 || m = 9 || m = 11 then 30
  else 31

/-- Model of a Python `datetime`: civil fields plus an optional fixed UTC
offset in minutes (`none` = timezone-naive, `some 0` = UTC). -/
structure DateTime where
  year : Int
  month : Nat
  day : Nat
  hour : Nat := 0
  minute : Nat := 0
  second : Nat := 0
  usec : Nat := 0
  tz : Option Int := none
deriving DecidableEq, Repr

def usPerDay : Int := 86400000000

/-- Microseconds within the day. -/
def timeUS (d : DateTime) : Int :=
  ((d.hour * 3600 + d.minute * 60 + d.second : Nat) : Int) * 1000000 + (d.usec : Int)

/-- Naive (wall-clock) microsecond timestamp. -/
def wallUS (d : DateTime) : Int :=
  daysFromCivil d.year d.month d.day * usPerDay + timeUS d

/-- Model of `datetime + timedelta(microseconds=n)` (keeps `tzinfo`). -/
def addMicros (d : DateTime) (n : Int) : DateTime :=
  let total : Int := timeUS d + n
  let dshift : Int := total.ediv usPerDay
  let rem : Nat := (total.emod usPerDay).toNat
  let c := civilFromDays (daysFromCivil d.year d.month d.day + dshift)
  { year := c.1, month := c.2.1, day := c.2.2,
    hour := rem / 3600000000,
    minute := rem % 3600000000 / 60000000,
    second := rem % 60000000 / 1000000,
    usec := rem % 1000000,
    tz := d.tz }

/-- Model of `datetime + timedelta(days=n)`. -/
def addDays (d : DateTime) (n : Int) : DateTime := addMicros d (n * usPerDay)

/-- Python `datetime.weekday()` (Monday = 0). 1970-01-01 was a Thursday. -/
def weekday (d : DateTime) : Int :=
  (daysFromCivil d.year d.month d.day + 3).emod 7

/-- `replace(hour=0, minute=0, second=0, microsecond=0)`. -/
def dayStart (d : DateTime) : DateTime :=
  { d with hour := 0, minute := 0, second := 0, usec := 0 }

/-- `replace(hour=23, minute=59, second=59, microsecond=999999)`. -/
def dayEnd (d : DateTime) : DateTime :=
  { d with hour := 23, minute := 59, second := 59, usec := 999999 }

/-- `replace(tzinfo=dateutil.tz.UTC)`. -/
def asUTC (d : DateTime) : DateTime := { d with tz := some 0 }

/-- String of Python's `TypeError` on comparing naive and aware datetimes. -/
def naiveAwareErr : Str :=
  strL "can\x27t compare offset-naive and offset-aware datetimes"

/-- Model of Python `datetime` comparison: naive/naive compare by wall clock,
aware/aware compare in UTC, mixed raises `TypeError`. -/
def cmpDT (a b : DateTime) : Except Str Ordering :=
  match a.tz, b.tz with
  | none, none => .ok (compare (wallUS a) (wallUS b))
  | some x, some y =>
      .ok (compare (wallUS a - x * 60000000) (wallUS b - y * 60000000))
  | _, _ => .error naiveAwareErr

def dtLE (a b : DateTime) : Except Str Bool :=
  (cmpDT a b).map (fun o => o ≠ Ordering.gt)

def dtLT (a b : DateTime) : Except Str Bool :=
  (cmpDT a b).map (fun o => o = Ordering.lt)

/-- Model of the Python chained comparison `s <= t < e` (short-circuiting,
raising on the first naive/aware mix it evaluates). -/
def inRangePy (s e t : DateTime) : Except Str Bool := do
  let c1 ← dtLE s t
  if c1 then dtLT t e else pure false

/-! ## Model of CPython `datetime.strptime`

Numeric fields follow the `_strptime` regex alternations (e.g. `%m` is
`1[0-2]|0[1-9]|[1-9]`), whitespace in a format matches a whitespace run, and
the whole string must be consumed. -/

/-- Exactly `n` digits. -/
def parseNDigits : Nat → Str → Option (Nat × Str)
  | 0, s => some (0, s)
  | n + 1, c :: cs =>
    if isDigit c then
      (parseNDigits n cs).map (fun p => (digitVal c * 10 ^ n + p.1, p.2))
    else none
  | _ + 1, [] => none

/-- One or more digits, greedy. -/
def digitsGreedy (s : Str) : Option (Nat × Str) :=
  let ds := s.takeWhile isDigit
  if ds = [] then none
  else some (ds.foldl (fun a c => a * 10 + digitVal c) 0, s.drop ds.length)

/-- `%m` / `%I`: `1[0-2]|0[1-9]|[1-9]`. -/
def pMon : Str → Option (Nat × Str)
  | c1 :: c2 :: rest =>
    if c1 == '1' && (48 ≤ c2.toNat && c2.toNat ≤ 50) then some (10 + digitVal c2, rest)
    else if c1 == '0' && (49 ≤ c2.toNat && c2.toNat ≤ 57) then some (digitVal c2, rest)
    else if 49 ≤ c1.toNat && c1.toNat ≤ 57 then some (digitVal c1, c2 :: rest)
    else none
  | [c1] => if 49 ≤ c1.toNat && c1.toNat ≤ 57 then some (digitVal c1, []) else none
  | [] => none

/-- `%d`: `3[01]|[12]\d|0[1-9]|[1-9]`. -/
def pDay : Str → Option (Nat × Str)
  | c1 :: c2 :: rest =>
    if c1 == '3' && (48 ≤ c2.toNat && c2.toNat ≤ 49) then some (30 + digitVal c2, rest)
    else if (c1 == '1' || c1 == '2') && isDigit c2 then
      some (digitVal c1 * 10 + digitVal c2, rest)
    else if c1 == '0' && (49 ≤ c2.toNat && c2.toNat ≤ 57) then some (digitVal c2, rest)
    else if 49 ≤ c1.toNat && c1.toNat ≤ 57 then some (digitVal c1, c2 :: rest)
    else none
  | [c1] => if 49 ≤ c1.toNat && c1.toNat ≤ 57 then some (digitVal c1, []) else none
  | [] => none

/-- `%H`: `2[0-3]|[0-1]\d|\d`. -/
def pHour : Str → Option (Nat × Str)
  | c1 :: c2 :: rest =>
    if c1 == '2' && (48 ≤ c2.toNat && c2.toNat ≤ 51) then some (20 + digitVal c2, rest)
    else if (c1 == '0' || c1 == '1') && isDigit c2 then
      some (digitVal c1 * 10 + digitVal c2, rest)
    else if isDigit c1 then some (digitVal c1, c2 :: rest)
    else none
  | [c1] => if isDigit c1 then some (digitVal c1, []) else none
  | [] => none

/-- `%M` / `%S`: `[0-5]\d|\d`. -/
def pMinSec : Str → Option (Nat × Str)
  | c1 :: c2 :: rest =>
    if (48 ≤ c1.toNat && c1.toNat ≤ 53) && isDigit c2 then
      some (digitVal c1 * 10 + digitVal c2, rest)
    else if isDigit c1 then some (digitVal c1, c2 :: rest)
    else none
  | [c1] => if isDigit c1 then some (digitVal c1, []) else none
  | [] => none

/-- Case-insensitive literal prefix (`pat` given lower-case); returns rest. -/
def prefMatchCI (pat s : Str) : Option Str :=
  if lowerStr (s.take pat.length) == pat then some (s.drop pat.length) else none

def monthNamesFull : List Str :=
  [strL "january", strL "february", strL "march", strL "april", strL "may",
   strL "june", strL "july", strL "august", strL "september", strL "october",
   strL "november", strL "december"]

def monthAbbrevs : List Str :=
  [strL "jan", strL "feb", strL "mar", strL "apr", strL "may", strL "jun",
   strL "jul", strL "aug", strL "sep", strL "oct", strL "nov", strL "dec"]

/-- Match one month name from a list (1-based result). -/
def pMonthName (names : List Str) (s : Str) : Option (Nat × Str) :=
  go names 1
where
  go : List Str → Nat → Option (Nat × Str)
    | [], _ => none
    | nm :: rest, i =>
      match prefMatchCI nm s with
      | some r => some (i, r)
      | none => go rest (i + 1)

/-- `%p`: `am` or `pm`, case-insensitive; `true` = pm. -/
def pAmPm (s : Str) : Option (Bool × Str) :=
  match prefMatchCI (strL "am") s with
  | some r => some (false, r)
  | none =>
    match prefMatchCI (strL "pm") s with
    | some r => some (true, r)
    | none => none

inductive FTok where
  | lit (c : Char)
  | ws
  | fY | fm | fd | fH | fM | fS | fI | fp | fb | fB
deriving DecidableEq

structure StrpAcc where
  y : Option Int := none
  mon : Option Nat := none
  d : Option Nat := none
  h : Option Nat := none
  i12 : Option Nat := none
  mi : Option Nat := none
  s : Option Nat := none
  pm : Option Bool := none

def strpTok (st : StrpAcc × Str) (t : FTok) : Option (StrpAcc × Str) :=
  match t, st.2 with
  | .lit c, x :: rest => if x == c then some (st.1, rest) else none
  | .lit _, [] => none
  | .ws, x :: rest =>
      if isWS x then some (st.1, rest.dropWhile isWS) else none
  | .ws, [] => none
  | .fY, s => (parseNDigits 4 s).map (fun p => ({ st.1 with y := some (p.1 : Int) }, p.2))
  | .fm, s => (pMon s).map (fun p => ({ st.1 with mon := some p.1 }, p.2))
  | .fd, s => (pDay s).map (fun p => ({ st.1 with d := some p.1 }, p.2))
  | .fH, s => (pHour s).map (fun p => ({ st.1 with h := some p.1 }, p.2))
  | .fM, s => (pMinSec s).map (fun p => ({ st.1 with mi := some p.1 }, p.2))
  | .fS, s => (pMinSec s).map (fun p => ({ st.1 with s := some p.1 }, p.2))
  | .fI, s => (pMon s).map (fun p => ({ st.1 with i12 := some p.1 }, p.2))
  | .fp, s => (pAmPm s).map (fun p => ({ st.1 with pm := some p.1 }, p.2))
  | .fb, s => (pMonthName monthAbbrevs s).map (fun p => ({ st.1 with mon := some p.1 }, p.2))
  | .fB, s => (pMonthName monthNamesFull s).map (fun p => ({ st.1 with mon := some p.1 }, p.2))

/-- CPython hour resolution for `%H` / `%I` + `%p`, and final validity check
performed by the `datetime` constructor. -/
def strpFinalize (a : StrpAcc) : Option DateTime :=
  let y := a.y.getD 1900
  let mon := a.mon.getD 1
  let d := a.d.getD 1
  let hour : Nat :=
    match a.h, a.i12, a.pm with
    | some h, _, _ => h
    | none, some i, some true => if i = 12 then 12 else i + 12
    | none, some i, some false => if i = 12 then 0 else i
    | none, some i, none => i
    | none, none, _ => 0
  if 1 ≤ mon && mon ≤ 12 && 1 ≤ d && d ≤ daysInMonth y mon then
    some ⟨y, mon, d, hour, a.mi.getD 0, a.s.getD 0, 0, none⟩
  else none

def strptime (fmt : List FTok) (s : Str) : Option DateTime :=
  match fmt.foldlM strpTok (({} : StrpAcc), s) with
  | some (acc, []) => strpFinalize acc
  | _ => none

/-- First format in the list that parses (each `strptime` wrapped in
`try/except ValueError: continue` in the source). -/
def tryFormats : List (List FTok) → Str → Option DateTime
  | [], _ => none
  | f :: rest, s =>
    match strptime f s with
    | some d => some d
    | none => tryFormats rest s

/-! ## Models of `datetime.fromisoformat` and the external `dateutil` parser -/

/-- Time-of-day validity (as enforced by the `datetime` constructor). -/
def timeOK (h mi ss : Nat) : Bool := h ≤ 23 && mi ≤ 59 && ss ≤ 59

def dateOK (y : Int) (m d : Nat) : Bool :=
  1 ≤ m && m ≤ 12 && 1 ≤ d && d ≤ daysInMonth y m

/-- Optional fraction `.fff` / `.ffffff` (exactly 3 or 6 digits, as accepted
by `fromisoformat`); returns microseconds. -/
def pFracIso (s : Str) : Option (Nat × Str) :=
  match s with
  | c :: rest =>
    if c == '.' then
      let ds := rest.takeWhile isDigit
      if ds.length = 3 then
        some ((ds.foldl (fun a c => a * 10 + digitVal c) 0) * 1000, rest.drop 3)
      else if ds.length = 6 then
        some (ds.foldl (fun a c => a * 10 + digitVal c) 0, rest.drop 6)
      else none
    else none
  | [] => none

/-- Offset `±HH:MM`; returns minutes east of UTC. -/
def pOffsetIso (s : Str) : Option (Int × Str) :=
  match s with
  | c :: rest =>
    if c == '+' || c == '-' then
      match parseNDigits 2 rest with
      | some (hh, r1) =>
        match r1 with
        | c2 :: r2 =>
          if c2 == ':' then
            match parseNDigits 2 r2 with
            | some (mm, r3) =>
              let v : Int := (hh * 60 + mm : Nat)
              some (if c == '-' then -v else v, r3)
            | none => none
          else none
        | [] => none
      | none => none
    else none
  | [] => none

/-- Model of `datetime.fromisoformat`: `YYYY-MM-DD[<sep>HH:MM[:SS[.fff(fff)]]][±HH:MM]`
with separator `T` or space; no trailing `Z` accepted.  Returns an aware value
exactly when an offset is present. -/
def fromIso (s : Str) : Option DateTime :=
  match parseNDigits 4 s with
  | some (y, r1) =>
    match r1 with
    | c1 :: r2 =>
      if c1 == '-' then
        match parseNDigits 2 r2 with
        | some (m, r3) =>
          match r3 with
          | c2 :: r4 =>
            if c2 == '-' then
              match parseNDigits 2 r4 with
              | some (d, r5) =>
                if dateOK (y : Int) m d then
                  match r5 with
                  | [] => some ⟨(y : Int), m, d, 0, 0, 0, 0, none⟩
                  | sep :: r6 =>
                    if sep == 'T' || sep == ' ' then
                      match parseNDigits 2 r6 with
                      | some (h, r7) =>
                        match r7 with
                        | c3 :: r8 =>
                          if c3 == ':' then
                            match parseNDigits 2 r8 with
                            | some (mi, r9) =>
                              let (ss, us, r10) :=
                                match r9 with
                                | c4 :: r9' =>
                                  if c4 == ':' then
                                    match parseNDigits 2 r9' with
                                    | some (ss, r9'') =>
                                      match pFracIso r9'' with
                                      | some (us, r9''') => (ss, us, r9''')
                                      | none => (ss, 0, r9'')
                                    | none => (0, 0, r9)
                                  else (0, 0, r9)
                                | [] => (0, 0, r9)
                              if timeOK h mi ss then
                                match r10 with
                                | [] => some ⟨(y : Int), m, d, h, mi, ss, us, none⟩
                                | _ =>
                                  match pOffsetIso r10 with
                                  | some (off, []) =>
                                    some ⟨(y : Int), m, d, h, mi, ss, us, some off⟩
                                  | _ => none
                              else none
                            | none => none
                          else none
                        | [] => none
                      | none => none
                    else none
                else none
              | none => none
            else none
          | [] => none
        | none => none
      else none
    | [] => none
  | none => none

/-- 1 or 2 digits. -/
def p12Digits (s : Str) : Option (Nat × Str) :=
  match s with
  | c1 :: c2 :: rest =>
    if isDigit c1 && isDigit c2 then some (digitVal c1 * 10 + digitVal c2, rest)
    else if isDigit c1 then some (digitVal c1, c2 :: rest)
    else none
  | [c1] => if isDigit c1 then some (digitVal c1, []) else none
  | [] => none

/-- Trailing timezone marker for the dateutil model: `Z`, `±HH:MM` or `±HHMM`. -/
def pTzTail (s : Str) : Option (Int × Str) :=
  match s with
  | c :: rest =>
    if c == 'Z' then some (0, rest)
    else if c == '+' || c == '-' then
      match parseNDigits 2 rest with
      | some (hh, r1) =>
        let (mm, r2) :=
          match r1 with
          | c2 :: r1' =>
            if c2 == ':' then
              match parseNDigits 2 r1' with
              | some (mm, r1'') => (mm, r1'')
              | none => (0, r1)
            else
              match parseNDigits 2 r1 with
              | some (mm, r1'') => (mm, r1'')
              | none => (0, r1)
          | [] => (0, r1)
        let v : Int := (hh * 60 + mm : Nat)
        some (if c == '-' then -v else v, r2)
      | none => none
    else none
  | [] => none

/-- Modelled from the external `dateutil.parser.parse` library (a collaborator
outside this repository): accepts the ISO-8601-like timestamp shapes this
repository's announcement data uses — `YYYY-M-D`, optionally followed by `T` or
a space and `H:MM[:SS[.ffffff]]`, optionally terminated by `Z` or a numeric
offset.  It returns a timezone-aware value (`tz = some _`) exactly when the
input carries an explicit offset or `Z`, and a naive value otherwise; inputs
outside these shapes are rejected (the library raises, the caller gets `None`).
-/
def dateutilParse (s : Str) : Option DateTime :=
  match parseNDigits 4 s with
  | some (y, r1) =>
    match r1 with
    | c1 :: r2 =>
      if c1 == '-' then
        match p12Digits r2 with
        | some (m, r3) =>
          match r3 with
          | c2 :: r4 =>
            if c2 == '-' then
              match p12Digits r4 with
              | some (d, r5) =>
                if dateOK (y : Int) m d then
                  match r5 with
                  | [] => some ⟨(y : Int), m, d, 0, 0, 0, 0, none⟩
                  | sep :: r6 =>
                    if sep == 'T' || sep == ' ' then
                      match p12Digits r6 with
                      | some (h, r7) =>
                        match r7 with
                        | c3 :: r8 =>
                          if c3 == ':' then
                            match parseNDigits 2 r8 with
                            | some (mi, r9) =>
                              let (ss, us, r10) :=
                                match r9 with
                                | c4 :: r9' =>
                                  if c4 == ':' then
                                    match parseNDigits 2 r9' with
                                    | some (ss, r9'') =>
                                      match pFracIso r9'' with
                                      | some (us, r9''') => (ss, us, r9''')
                                      | none => (ss, 0, r9'')
                                    | none => (0, 0, r9)
                                  else (0, 0, r9)
                                | [] => (0, 0, r9)
                              if timeOK h mi ss then
                                match r10 with
                                | [] => some ⟨(y : Int), m, d, h, mi, ss, us, none⟩
                                | _ =>
                                  match pTzTail r10 with
                                  | some (off, []) =>
                                    some ⟨(y : Int), m, d, h, mi, ss, us, some off⟩
                                  | _ => none
                              else none
                            | none => none
                          else none
                        | [] => none
                      | none => none
                    else none
                else none
              | none => none
            else none
          | [] => none
        | none => none
      else none
    | [] => none
  | none => none

/-! ## `AirtableTool._parse_sent_time` -/

/-- Model of `re.sub(r'\.[\d]+', '', s)` as a left-to-right scan: a dot
followed by at least one digit starts a deleted run (`inRun`), and the run
swallows the following digits. -/
def removeMsGo : Str → Bool → Str
  | [], _ => []
  | c :: cs, inRun =>
    if inRun && isDigit c then removeMsGo cs true
    else if c == '.' && (match cs with | d :: _ => isDigit d | [] => false) then
      removeMsGo cs true
    else c :: removeMsGo cs false

/-- Model of `re.sub(r'\.[\d]+', '', s)`: delete every dot-plus-digit-run. -/
def removeMsRuns (s : Str) : Str := removeMsGo s false

/-- Model of `re.sub(r'Z$', '', s)`. -/
def stripZEnd (s : Str) : Str :=
  match s.reverse with
  | c :: rest => if c == 'Z' then rest.reverse else s
  | [] => s

/-- Model of `re.sub(r'[+-][\d:]+$', '', s)`. -/
def stripOffsetEnd (s : Str) : Str :=
  let r := s.reverse
  let sp := r.takeWhile (fun c => isDigit c || c == ':')
  match r.drop sp.length with
  | c :: tail =>
    if (c == '+' || c == '-') && sp ≠ [] then tail.reverse else s
  | [] => s

/-- Model of `re.sub(r'\s+[A-Z]{3,4}$', '', s)` (drop a trailing timezone
abbreviation together with the whitespace before it). -/
def stripTzAbbrev (s : Str) : Str :=
  let r := s.reverse
  let letters := r.takeWhile (fun c => 65 ≤ c.toNat && c.toNat ≤ 90)
  if letters.length = 3 || letters.length = 4 then
    let rest := r.drop letters.length
    let wss := rest.takeWhile isWS
    if wss ≠ [] then (rest.drop wss.length).reverse else s
  else s

def isoFmtSec : List FTok :=
  [.fY, .lit '-', .fm, .lit '-', .fd, .lit 'T', .fH, .lit ':', .fM, .lit ':', .fS]

def isoFmtMin : List FTok :=
  [.fY, .lit '-', .fm, .lit '-', .fd, .lit 'T', .fH, .lit ':', .fM]

/-- The `formats` list of `_parse_sent_time` (lines 392-399). -/
def sentTimeFormats : List (List FTok) :=
  [[.fm, .lit '/', .fd, .lit '/', .fY, .ws, .fI, .lit ':', .fM, .fp],
   [.fm, .lit '/', .fd, .lit '/', .fY, .ws, .fH, .lit ':', .fM],
   [.fm, .lit '/', .fd, .lit '/', .fY],
   [.fY, .lit '-', .fm, .lit '-', .fd, .ws, .fH, .lit ':', .fM, .lit ':', .fS],
   [.fY, .lit '-', .fm, .lit '-', .fd, .ws, .fH, .lit ':', .fM],
   [.fY, .lit '-', .fm, .lit '-', .fd]]

/-- `AirtableTool._parse_sent_time`: dateutil first, then the ISO-cleanup
branch when the string contains `T`, then the explicit format list applied to
the string with a trailing timezone abbreviation removed. -/
def parseSentTime (s : Str) : Option DateTime :=
  if s = [] then none
  else
    match dateutilParse s with
    | some d => some d
    | none =>
      let viaIso : Option DateTime :=
        if s.contains 'T' then
          let isoBasic := stripOffsetEnd (stripZEnd (removeMsRuns s))
          match fromIso isoBasic with
          | some d => some d
          | none => tryFormats [isoFmtSec, isoFmtMin] isoBasic
        else none
      match viaIso with
      | some d => some d
      | none => tryFormats sentTimeFormats (stripTzAbbrev s)

/-! ## `DateUtils` (src/utils/date_utils.py) -/

/-- Case-sensitive literal prefix; returns the rest on success. -/
def prefMatchO : Str → Str → Option Str
  | [], s => some s
  | _ :: _, [] => none
  | a :: as, b :: bs => if a == b then prefMatchO as bs else none

/-- `\s+`: at least one whitespace char, consumed greedily. -/
def wsPlus : Str → Option Str
  | c :: cs => if isWS c then some (cs.dropWhile isWS) else none
  | [] => none

/-- Lazy group `(.+?)` followed by a stop pattern: grow the group one char at
a time (shortest first), returning the group and the rest after the stop. -/
def lazyGroupGo (stop : Str → Option Str) : Str → Str → Option (Str × Str)
  | accRev, rest =>
    match stop rest with
    | some after => some (accRev.reverse, after)
    | none =>
      match rest with
      | [] => none
      | c :: cs => lazyGroupGo stop (c :: accRev) cs

def lazyGroup (stop : Str → Option Str) : Str → Option (Str × Str)
  | [] => none
  | c :: cs => lazyGroupGo stop [c] cs

/-- One attempt of the pattern `w1\s+(.+?)\s+w2\s+(.+?)(?:\s|$)` anchored at
the start of `s` (a model of the Python regex without general backtracking:
the second group is read as the run up to the next whitespace). -/
def tryPairAt (w1 w2 : Str) (s : Str) : Option (Str × Str) :=
  match prefMatchO w1 s with
  | none => none
  | some r1 =>
    match wsPlus r1 with
    | none => none
    | some r2 =>
      let stop : Str → Option Str := fun r =>
        match wsPlus r with
        | some r' =>
          match prefMatchO w2 r' with
          | some r'' => wsPlus r''
          | none => none
        | none => none
      match lazyGroup stop r2 with
      | none => none
      | some (g1, r3) =>
        if r3 = [] then none
        else some (g1, r3.takeWhile (fun c => !(isWS c)))

/-- Model of `re.search(r"w1\s+(.+?)\s+w2\s+(.+?)(?:\s|$)", text)`: leftmost
start position wins. -/
def searchPair (w1 w2 : Str) : Str → Option (Str × Str)
  | [] => none
  | s@(_ :: rest) =>
    match tryPairAt w1 w2 s with
    | some r => some r
    | none => searchPair w1 w2 rest

inductive TimeUnit where
  | day | week | month
deriving DecidableEq

def unitDays : TimeUnit → Nat
  | .day => 1
  | .week => 7
  | .month => 30

/-- The alternation `(day|days|week|weeks|month|months)`, first match wins. -/
def unitAlts : List (Str × TimeUnit) :=
  [(strL "day", .day), (strL "days", .day), (strL "week", .week),
   (strL "weeks", .week), (strL "month", .month), (strL "months", .month)]

def altMatch : List (Str × TimeUnit) → Str → Option (TimeUnit × Str)
  | [], _ => none
  | (w, u) :: rest, s =>
    match prefMatchO w s with
    | some r => some (u, r)
    | none => altMatch rest s

/-- Model of `re.match(r"in (\d+) (day|days|week|weeks|month|months)", text)`. -/
def matchInN (t : Str) : Option (Nat × TimeUnit) :=
  match prefMatchO (strL "in ") t with
  | some r1 =>
    match digitsGreedy r1 with
    | some (n, r2) =>
      match prefMatchO (strL " ") r2 with
      | some r3 => (altMatch unitAlts r3).map (fun p => (n, p.1))
      | none => none
    | none => none
  | none => none

/-- Alternation with the mandatory ` ago` continuation (the regex backtracks
to the next alternative when ` ago` does not follow). -/
def altMatchAgo : List (Str × TimeUnit) → Str → Option TimeUnit
  | [], _ => none
  | (w, u) :: rest, s =>
    match prefMatchO w s with
    | some r =>
      match prefMatchO (strL " ago") r with
      | some _ => some u
      | none => altMatchAgo rest s
    | none => altMatchAgo rest s

/-- Model of `re.match(r"(\d+) (day|days|week|weeks|month|months) ago", text)`. -/
def matchAgo (t : Str) : Option (Nat × TimeUnit) :=
  match digitsGreedy t with
  | some (n, r1) =>
    match prefMatchO (strL " ") r1 with
    | some r2 => (altMatchAgo unitAlts r2).map (fun u => (n, u))
    | none => none
  | none => none

def dayNamesWeek : List Str :=
  [strL "monday", strL "tuesday", strL "wednesday", strL "thursday",
   strL "friday", strL "saturday", strL "sunday"]

/-- The `next <day>` / `last <day>` loop of `parse_natural_language_date`
(first weekday name in list order wins). -/
def nextLastDayGo (text : Str) (now : DateTime) : List Str → Nat → Option DateTime
  | [], _ => none
  | d :: rest, i =>
    if hasSub text (strL "next " ++ d) then
      let ahead0 : Int := ((i : Int) - weekday now).emod 7
      let ahead : Int := if ahead0 = 0 then 7 else ahead0
      some (addDays (dayStart now) ahead)
    else if hasSub text (strL "last " ++ d) then
      let behind0 : Int := (weekday now - (i : Int)).emod 7
      let behind : Int := if behind0 = 0 then 7 else behind0
      some (addDays (dayStart now) (-behind))
    else nextLastDayGo text now rest (i + 1)

/-- `DateUtils.parse_natural_language_date` (`now` is the naive current
datetime). -/
def parseNaturalLanguageDate (text0 : Str) (now : DateTime) : Option DateTime :=
  let text := stripStr (lowerStr text0)
  if text = strL "today" then some (dayStart now)
  else if text = strL "tomorrow" then some (addDays (dayStart now) 1)
  else if text = strL "yesterday" then some (addDays (dayStart now) (-1))
  else
    match nextLastDayGo text now dayNamesWeek 0 with
    | some d => some d
    | none =>
      match matchInN text with
      | some (n, u) => some (addDays now ((n * unitDays u : Nat) : Int))
      | none =>
        match matchAgo text with
        | some (n, u) => some (addDays now (-((n * unitDays u : Nat) : Int)))
        | none => none

/-- The `formats` list of `DateUtils.parse_date_time`. -/
def duFormats : List (List FTok) :=
  [[.fY, .lit '-', .fm, .lit '-', .fd, .ws, .fH, .lit ':', .fM, .lit ':', .fS],
   [.fY, .lit '-', .fm, .lit '-', .fd, .ws, .fH, .lit ':', .fM],
   [.fY, .lit '-', .fm, .lit '-', .fd],
   [.fm, .lit '/', .fd, .lit '/', .fY, .ws, .fH, .lit ':', .fM, .lit ':', .fS],
   [.fm, .lit '/', .fd, .lit '/', .fY, .ws, .fH, .lit ':', .fM],
   [.fm, .lit '/', .fd, .lit '/', .fY],
   [.fd, .lit '-', .fm, .lit '-', .fY, .ws, .fH, .lit ':', .fM, .lit ':', .fS],
   [.fd, .lit '-', .fm, .lit '-', .fY, .ws, .fH, .lit ':', .fM],
   [.fd, .lit '-', .fm, .lit '-', .fY],
   [.fb, .ws, .fd, .lit ',', .ws, .fY],
   [.fd, .ws, .fb, .ws, .fY],
   [.fB, .ws, .fd, .lit ',', .ws, .fY],
   [.fd, .ws, .fB, .ws, .fY]]

/-- `DateUtils.parse_date_time`. -/
def parseDateTime (text : Str) (now : DateTime) : Option DateTime :=
  match fromIso text with
  | some d => some d
  | none =>
    match tryFormats duFormats text with
    | some d => some d
    | none => parseNaturalLanguageDate text now

/-- `DateUtils.get_date_range`. -/
def getDateRange (period : Str) (aware : Bool) (now : DateTime) : DateTime × DateTime :=
  let res : DateTime × DateTime :=
    if period = strL "today" then (dayStart now, dayEnd now)
    else if period = strL "yesterday" then
      let y := addDays now (-1)
      (dayStart y, dayEnd y)
    else if period = strL "this_week" || period = strL "this week" then
      let s := dayStart (addDays now (-(weekday now)))
      (s, dayEnd (addDays s 6))
    else if period = strL "last_week" || period = strL "last week" then
      let s := dayStart (addDays now (-(weekday now + 7)))
      (s, dayEnd (addDays s 6))
    else if period = strL "next_week" || period = strL "next week" then
      let s := dayStart (addDays now (7 - weekday now))
      (s, dayEnd (addDays s 6))
    else if period = strL "this_month" || period = strL "this month" then
      (dayStart { now with day := 1 },
       dayEnd { now with day := daysInMonth now.year now.month })
    else if period = strL "last_month" || period = strL "last month" then
      let firstCur := dayStart { now with day := 1 }
      let lastPrev := addDays firstCur (-1)
      (dayStart { lastPrev with day := 1 }, dayEnd lastPrev)
    else if period = strL "next_month" || period = strL "next month" then
      let firstCur := dayStart { now with day := 1 }
      let s := if now.month = 12 then { firstCur with year := now.year + 1, month := 1 }
               else { firstCur with month := now.month + 1 }
      (s, dayEnd { s with day := daysInMonth s.year s.month })
    else if period = strL "this_year" || period = strL "this year" then
      (dayStart { now with month := 1, day := 1 },
       dayEnd { now with month := 12, day := 31 })
    else if period = strL "last_year" || period = strL "last year" then
      (dayStart { now with year := now.year - 1, month := 1, day := 1 },
       dayEnd { now with year := now.year - 1, month := 12, day := 31 })
    else (dayStart now, dayEnd now)
  if aware then (asUTC res.1, asUTC res.2) else res

def relativePeriods : List Str :=
  [strL "today", strL "yesterday",
   strL "this week", strL "last week", strL "next week",
   strL "this month", strL "last month", strL "next month",
   strL "this year", strL "last year",
   strL "this_week", strL "last_week", strL "next_week",
   strL "this_month", strL "last_month", strL "next_month",
   strL "this_year", strL "last_year"]

/-- `datetime.combine(date_dt.date(), time_dt.time())` (the time value's
`tzinfo` is carried over; `strptime` times are naive). -/
def combineDT (d t : DateTime) : DateTime :=
  ⟨d.year, d.month, d.day, t.hour, t.minute, t.second, t.usec, t.tz⟩

/-- The `time_formats` list of the `on X at Y` branch. -/
def timeFormats : List (List FTok) :=
  [[.fH, .lit ':', .fM],
   [.fH, .lit ':', .fM, .lit ':', .fS],
   [.fI, .lit ':', .fM, .ws, .fp],
   [.fI, .lit ':', .fM, .lit ':', .fS, .ws, .fp]]

/-- `DateUtils.extract_date_time_range`. -/
def extractDateTimeRange (text0 : Str) (now : DateTime) :
    Option DateTime × Option DateTime :=
  let text := stripStr (lowerStr text0)
  if relativePeriods.contains text then
    let r := getDateRange text false now
    (some r.1, some r.2)
  else
    match searchPair (strL "from") (strL "to") text with
    | some (a, b) => (parseDateTime a now, parseDateTime b now)
    | none =>
      match searchPair (strL "between") (strL "and") text with
      | some (a, b) => (parseDateTime a now, parseDateTime b now)
      | none =>
        let onAt : Option (DateTime × DateTime) :=
          match searchPair (strL "on") (strL "at") text with
          | some (dt, tt) =>
            match parseDateTime dt now with
            | some d =>
              match tryFormats timeFormats tt with
              | some t =>
                let s := combineDT d t
                some (s, addMicros s 3600000000)
              | none => none
            | none => none
          | none => none
        match onAt with
        | some (s, e) => (some s, some e)
        | none =>
          match parseDateTime text now with
          | some d => (some (dayStart d), some (dayEnd d))
          | none => (none, none)

/-! ## `AirtableTool` records and filters -/

/-- An announcement record (`record["fields"]`): the fields the engine reads,
with the `.get(..., "")` defaults folded in (an absent text field is `[]`,
an absent `SentTime` is `none`). -/
structure Rec where
  title : Str := []
  descr : Str := []
  sentBy : Str := []
  sentTime : Option Str := none
deriving DecidableEq, Repr

/-- `AirtableTool._filter_by_sender`: keep records whose lower-cased
`SentByUser` contains the lower-cased sender name (the source's append loop
is a `filter`). -/
def filterBySender (anns : List Rec) (senderName : Str) : List Rec :=
  anns.filter (fun a => hasSub (lowerStr a.sentBy) (lowerStr senderName))

/-- Body of the `_filter_by_date_range` loop: `s` and `e` already aware.
The comparison can raise (naive parsed value vs aware bound), which aborts
the whole loop. -/
def filterByDateRangeGo (s e : DateTime) : List Rec → Except Str (List Rec)
  | [] => .ok []
  | a :: rest =>
    match a.sentTime with
    | some ts =>
      if ts ≠ [] then
        match parseSentTime ts with
        | some t => do
          let keep ← inRangePy s e t
          let tail ← filterByDateRangeGo s e rest
          pure (if keep then a :: tail else tail)
        | none => filterByDateRangeGo s e rest
      else filterByDateRangeGo s e rest
    | none => filterByDateRangeGo s e rest

/-- `AirtableTool._filter_by_date_range`: make the bounds aware (UTC) if
naive, then keep records whose parsed `SentTime` satisfies `s <= t < e`. -/
def filterByDateRange (anns : List Rec) (s e : DateTime) : Except Str (List Rec) :=
  let s' := if s.tz = none then asUTC s else s
  let e' := if e.tz = none then asUTC e else e
  filterByDateRangeGo s' e' anns

/-- `AirtableTool._filter_by_month` (UTC month range in `year`, December
wrapping to January 1 of the next year). -/
def filterByMonth (anns : List Rec) (monthNum : Nat) (year : Int) :
    Except Str (List Rec) :=
  let startD : DateTime := ⟨year, monthNum, 1, 0, 0, 0, 0, some 0⟩
  let endD : DateTime :=
    if monthNum = 12 then ⟨year + 1, 1, 1, 0, 0, 0, 0, some 0⟩
    else ⟨year, monthNum + 1, 1, 0, 0, 0, 0, some 0⟩
  filterByDateRange anns startD endD

/-- The `month_names` scan of `_filter_by_date`: first month (January first,
insertion order of the dict built from `calendar.month_name`) whose name is a
substring of the query; 1-based month number. -/
def firstMonthIn (q : Str) : Option Nat :=
  (monthNamesFull.findIdx? (fun nm => hasSub q nm)).map (· + 1)

/-- `AirtableTool._filter_by_date`: month-name scan, then
`extract_date_time_range`, then a single date (plus one day), and finally —
when nothing parses — the original list is returned unchanged (the source
logs a warning and returns `announcements`). -/
def filterByDate (anns : List Rec) (dateQuery : Str) (now : DateTime) :
    Except Str (List Rec) :=
  let q := stripStr (lowerStr dateQuery)
  match firstMonthIn q with
  | some m => filterByMonth anns m now.year
  | none =>
    match extractDateTimeRange q now with
    | (some s, some e) => filterByDateRange anns s e
    | _ =>
      match parseDateTime q now with
      | some d => filterByDateRange anns d (addDays d 1)
      | none => .ok anns

/-! ## `AirtableTool._calculate_relevance_score` and text ranking -/

/-- The hard-coded `STOP_WORDS` set. -/
def STOPWORDS : List Str :=
  [strL "a", strL "an", strL "and", strL "are", strL "as", strL "at",
   strL "be", strL "by", strL "for", strL "from", strL "has", strL "he",
   strL "in", strL "is", strL "it", strL "its", strL "of", strL "on",
   strL "that", strL "the", strL "to", strL "was", strL "will", strL "with",
   strL "this", strL "but", strL "they", strL "have", strL "had",
   strL "what", strL "said", strL "each", strL "which", strL "she",
   strL "do", strL "how", strL "their", strL "if", strL "up", strL "out",
   strL "many", strL "then", strL "them", strL "these", strL "so",
   strL "some", strL "her", strL "would", strL "make", strL "like",
   strL "into", strL "him", strL "time", strL "two", strL "more",
   strL "go", strL "no", strL "way", strL "could", strL "my", strL "than",
   strL "first", strL "been", strL "call", strL "who", strL "oil",
   strL "sit", strL "now", strL "find", strL "down", strL "day",
   strL "did", strL "get", strL "come", strL "made", strL "may",
   strL "part"]

/-- `clean_phrase`: stop words removed, rejoined with single spaces. -/
def cleanPhraseOf (searchLower : Str) : Str :=
  joinSp ((splitWS searchLower).filter (fun w => !(STOPWORDS.contains w)))

/-- `search_keywords`: stop words removed, tokens longer than 2 chars. -/
def keywordsOf (searchLower : Str) : List Str :=
  (splitWS searchLower).filter
    (fun w => !(STOPWORDS.contains w) && decide (2 < w.length))

/-- The multi-keyword accumulation loop (`keyword_matches`): 1 per keyword in
the combined text, plus 0.5 when that keyword is also in the title. -/
def multiKeywordCount (combined title : Str) (kws : List Str) : ℚ :=
  kws.foldl
    (fun acc k =>
      acc + (if hasSub combined k then
               1 + (if hasSub title k then (1 : ℚ) / 2 else 0)
             else 0))
    0

/-- The single-keyword loop: first keyword found in the combined text scores
20 (+10 when also in the title); the scan stops there. -/
def singleKeywordScore (combined title : Str) : List Str → ℚ
  | [] => 0
  | k :: ks =>
    if hasSub combined k then (if hasSub title k then 30 else 20)
    else singleKeywordScore combined title ks

/-- `AirtableTool._calculate_relevance_score` (scores in `ℚ` since the
multi-keyword tier accumulates halves). -/
def calcRelevanceScore (combined title origPhrase cleanPhrase : Str)
    (kws : List Str) : ℚ :=
  if hasSub combined origPhrase then
    (if hasSub title origPhrase then 150 else 100)
  else if cleanPhrase ≠ [] && hasSub combined cleanPhrase then
    (if hasSub title cleanPhrase then 120 else 80)
  else if 1 < kws.length then
    let c := multiKeywordCount combined title kws
    if 2 ≤ c then 60 + (c - 2) * 10 else 0
  else singleKeywordScore combined title kws

/-- `combined_text`: lower-cased title, description and sender, space-joined. -/
def combinedTextOf (a : Rec) : Str :=
  lowerStr a.title ++ strL " " ++ lowerStr a.descr ++ strL " " ++ lowerStr a.sentBy

/-- Relevance score of one record for the (lowered, stripped) phrase `sl`. -/
def recScore (sl : Str) (a : Rec) : ℚ :=
  calcRelevanceScore (combinedTextOf a) (lowerStr a.title) sl
    (cleanPhraseOf sl) (keywordsOf sl)

/-- Stable descending insertion: the new element goes after every element
with a strictly greater score and before equal scores (it comes earlier in
the input). -/
def insertDesc (x : Rec × ℚ) : List (Rec × ℚ) → List (Rec × ℚ)
  | [] => [x]
  | y :: ys => if x.2 < y.2 then y :: insertDesc x ys else x :: y :: ys

/-- Model of `list.sort(key=lambda x: x[1], reverse=True)`: the stable
descending sort (Python's sort is stable and `reverse=True` preserves the
relative order of equal keys). -/
def sortDesc : List (Rec × ℚ) → List (Rec × ℚ)
  | [] => []
  | x :: xs => insertDesc x (sortDesc xs)

/-- The scoring loop of `_search_and_rank_by_text`: keep `(record, score)`
pairs with positive score, in input order. -/
def scoredOf (anns : List Rec) (sl : Str) : List (Rec × ℚ) :=
  anns.filterMap (fun a =>
    let s := recScore sl a
    if 0 < s then some (a, s) else none)

/-- `AirtableTool._search_and_rank_by_text`: an empty (stripped) phrase
returns the input unchanged; otherwise records scoring > 0, sorted by score
descending (stable). -/
def searchAndRankByText (anns : List Rec) (searchText : Str) : List Rec :=
  let sl := stripStr (lowerStr searchText)
  if sl = [] then anns
  else (sortDesc (scoredOf anns sl)).map Prod.fst

/-! ## `get_all_announcements` and `combined_filter_announcements` -/

/-- The Airtable client collaborator: whether the connection is initialized,
and the outcome of `get_all_records()` (`.error` models a raised exception
whose text is the string). -/
structure Client where
  initialized : Bool
  fetched : Except Str (List Rec)

/-- The dictionary returned by the pipeline entry points: `count`,
`announcements`, and the optional `message` / `error` keys. -/
structure FilterResult where
  count : Nat
  announcements : List Rec
  message : Option Str := none
  error : Option Str := none
deriving DecidableEq, Repr

def connErrMsg : Str := strL "Error: Airtable connection not initialized."

def natStr (n : Nat) : Str := Nat.toDigits 10 n

/-- `AirtableTool.get_all_announcements`. -/
def getAllAnnouncements (c : Client) : FilterResult :=
  if !c.initialized then ⟨0, [], none, some connErrMsg⟩
  else
    match c.fetched with
    | .error e => ⟨0, [], none, some (strL "Error fetching all announcements: " ++ e)⟩
    | .ok [] => ⟨0, [], some (strL "No announcements found."), none⟩
    | .ok recs =>
      ⟨recs.length, recs,
       some (strL "Found " ++ natStr recs.length ++ strL " announcements."), none⟩

/-- The argument cleanup `x.strip() if x else None` (an empty string is falsy
and becomes `None`; a whitespace-only string strips to the empty string). -/
def cleanupArg : Option Str → Option Str
  | none => none
  | some s => if s = [] then none else some (stripStr s)

/-- Python truthiness of the optional-string filter arguments. -/
def truthyS : Option Str → Bool
  | none => false
  | some s => !s.isEmpty

def senderStep (s : Str) : Str := strL "sender \x27" ++ s ++ strL "\x27"

def dateStep (s : Str) : Str := strL "date \x27" ++ s ++ strL "\x27"

def textStep (s : Str) : Str := strL "text \x27" ++ s ++ strL "\x27"

/-- `" AND ".join(filter_steps)`. -/
def joinAND (steps : List Str) : Str := List.intercalate (strL " AND ") steps

/-- `AirtableTool.combined_filter_announcements`.  The stages mirror the
source: argument cleanup, initial fetch, sender filter, date filter (whose
datetime comparison may raise — the method's `except` clause turns that into
an error result), text search with the empty-working-set fallback, and the
message build.  The `isinstance` guard on the stage-1 result is always
satisfied in this model (`get_all_announcements` always returns the
dictionary shape). -/
def combinedFilter (c : Client) (searchText0 senderName0 dateQuery0 : Option Str)
    (now : DateTime) : FilterResult :=
  if !c.initialized then ⟨0, [], none, some connErrMsg⟩
  else
    let st := cleanupArg searchText0
    let sn := cleanupArg senderName0
    let dq := cleanupArg dateQuery0
    let allRes := getAllAnnouncements c
    let anns0 := allRes.announcements
    let anns1 := if truthyS sn then filterBySender anns0 (sn.getD []) else anns0
    let steps1 : List Str := if truthyS sn then [senderStep (sn.getD [])] else []
    let dres : Except Str (List Rec) :=
      if truthyS dq then filterByDate anns1 (dq.getD []) now else .ok anns1
    match dres with
    | .error e =>
      ⟨0, [], none, some (strL "Error filtering announcements: " ++ e)⟩
    | .ok anns2 =>
      let steps2 := steps1 ++ (if truthyS dq then [dateStep (dq.getD [])] else [])
      let base :=
        if truthyS st && anns2.isEmpty && (truthyS sn || truthyS dq) then anns0
        else anns2
      let doSearch := truthyS st && !base.isEmpty
      let anns3 := if doSearch then searchAndRankByText base (st.getD []) else base
      let steps3 := steps2 ++ (if doSearch then [textStep (st.getD [])] else [])
      let msg :=
        if steps3.isEmpty then
          strL "Found " ++ natStr anns3.length ++ strL " announcements."
        else
          strL "Found " ++ natStr anns3.length ++ strL " announcements matching " ++
            joinAND steps3 ++ strL "."
      ⟨anns3.length, anns3, some msg, none⟩

/-! ## Spec-side formulations and concrete data used by the theorems -/

/-- Multi-keyword match count as the spec words it: 1 per keyword found in
the combined text plus an extra 0.5 per such keyword also found in the title,
accumulated fractionally. -/
def specMultiCount (combined title : Str) (kws : List Str) : ℚ :=
  (kws.map (fun k =>
    if hasSub combined k then
      1 + (if hasSub title k then (1 : ℚ) / 2 else 0)
    else 0)).sum

/-- Multi-keyword tier score as the spec words it: `60 + 10*(count - 2)` when
the count reaches 2, otherwise 0. -/
def specMultiScore (combined title : Str) (kws : List Str) : ℚ :=
  if 2 ≤ specMultiCount combined title kws then
    60 + 10 * (specMultiCount combined title kws - 2)
  else 0

/-- A fixed "now" for concrete evaluations: 2025-05-20 12:00 (naive). -/
def now2025 : DateTime := ⟨2025, 5, 20, 12, 0, 0, 0, none⟩

def recMay : Rec :=
  { title := strL "Lemonade Sale", sentBy := strL "Sierra",
    sentTime := some (strL "2025-05-10T10:00:00Z") }

def recJan : Rec :=
  { title := strL "Winter Concert", sentBy := strL "Sierra",
    sentTime := some (strL "2025-01-15T10:00:00Z") }

/-- A record whose `SentTime` parses to a timezone-naive datetime. -/
def recNaive : Rec :=
  { title := strL "Picnic", sentBy := strL "Sierra",
    sentTime := some (strL "2025-05-07 14:29") }

def clientOne : Client := ⟨true, .ok [recMay]⟩

def clientNaive : Client := ⟨true, .ok [recNaive]⟩

def nonsenseQ : Str := strL "nonsense query xyz"

def mayStartUTC : DateTime := ⟨2025, 5, 1, 0, 0, 0, 0, some 0⟩

def juneStartUTC : DateTime := ⟨2025, 6, 1, 0, 0, 0, 0, some 0⟩

/-! ## Lemmas about the stable descending sort -/

theorem insertDesc_perm (x : Rec × ℚ) (l : List (Rec × ℚ)) :
    (insertDesc x l).Perm (x :: l) := by
  induction l with
  | nil => simp [insertDesc]
  | cons y ys ih =>
    simp only [insertDesc]
    split
    · exact (ih.cons y).trans (List.Perm.swap x y ys)
    · exact List.Perm.refl _

theorem sortDesc_perm (l : List (Rec × ℚ)) : (sortDesc l).Perm l := by
  induction l with
  | nil => simp [sortDesc]
  | cons x xs ih => exact (insertDesc_perm x (sortDesc xs)).trans (ih.cons x)

theorem insertDesc_sorted (x : Rec × ℚ) (l : List (Rec × ℚ))
    (h : l.Pairwise (fun a b => b.2 ≤ a.2)) :
    (insertDesc x l).Pairwise (fun a b => b.2 ≤ a.2) := by
  induction l with
  | nil => simp [insertDesc]
  | cons y ys ih =>
    rw [List.pairwise_cons] at h
    simp only [insertDesc]
    split
    · rename_i hlt
      refine List.pairwise_cons.mpr ⟨?_, ih h.2⟩
      intro z hz
      rcases List.mem_cons.mp ((insertDesc_perm x ys).mem_iff.mp hz) with rfl | hz'
      · exact le_of_lt hlt
      · exact h.1 z hz'
    · rename_i hge
      refine List.pairwise_cons.mpr ⟨?_, List.pairwise_cons.mpr ⟨h.1, h.2⟩⟩
      intro z hz
      rcases List.mem_cons.mp hz with rfl | hz'
      · exact not_lt.mp hge
      · exact le_trans (h.1 z hz') (not_lt.mp hge)

theorem sortDesc_sorted (l : List (Rec × ℚ)) :
    (sortDesc l).Pairwise (fun a b => b.2 ≤ a.2) := by
  induction l with
  | nil => simp [sortDesc]
  | cons x xs ih => exact insertDesc_sorted x _ ih

theorem filter_insertDesc (x : Rec × ℚ) (l : List (Rec × ℚ)) (q : ℚ) :
    (insertDesc x l).filter (fun y => decide (y.2 = q)) =
      if x.2 = q then x :: l.filter (fun y => decide (y.2 = q))
      else l.filter (fun y => decide (y.2 = q)) := by
  induction l with
  | nil =>
    by_cases hx : x.2 = q <;> simp [insertDesc, List.filter, hx]
  | cons y ys ih =>
    simp only [insertDesc]
    split
    · rename_i hlt
      simp only [List.filter_cons]
      rw [ih]
      by_cases hx : x.2 = q
      · have hy : ¬ y.2 = q := by rw [← hx]; exact (ne_of_gt hlt)
        simp [hx, hy]
      · simp [hx]
    · simp only [List.filter_cons]
      by_cases hx : x.2 = q <;> simp [hx]

theorem filter_sortDesc (l : List (Rec × ℚ)) (q : ℚ) :
    (sortDesc l).filter (fun y => decide (y.2 = q)) =
      l.filter (fun y => decide (y.2 = q)) := by
  induction l with
  | nil => rfl
  | cons x xs ih =>
    simp only [sortDesc]
    rw [filter_insertDesc]
    by_cases hx : x.2 = q <;> simp [hx, ih, List.filter_cons]

/-! ## Lemmas about the scoring loop and the pipeline -/

theorem scoredOf_snd (anns : List Rec) (sl : Str) :
    ∀ p ∈ scoredOf anns sl, p.2 = recScore sl p.1 ∧ 0 < p.2 := by
  intro p hp
  simp only [scoredOf, List.mem_filterMap] at hp
  obtain ⟨a, _, heq⟩ := hp
  by_cases h : 0 < recScore sl a
  · rw [if_pos h] at heq
    cases heq
    exact ⟨rfl, h⟩
  · rw [if_neg h] at heq
    cases heq

theorem map_fst_filter (sl : Str) (q : ℚ) (l : List (Rec × ℚ))
    (hinv : ∀ p ∈ l, p.2 = recScore sl p.1) :
    (l.map Prod.fst).filter (fun r => decide (recScore sl r = q)) =
      (l.filter (fun p => decide (p.2 = q))).map Prod.fst := by
  induction l with
  | nil => rfl
  | cons p ps ih =>
    have hp := hinv p (List.mem_cons_self _ _)
    have ih' := ih (fun r hr => hinv r (List.mem_cons_of_mem _ hr))
    simp only [List.map_cons, List.filter_cons, hp]
    by_cases hc : recScore sl p.1 = q
    · simp [hc, ih']
    · simp [hc, ih']

theorem scored_filter_map_fst (anns : List Rec) (sl : Str) (q : ℚ) :
    ((scoredOf anns sl).filter (fun p => decide (p.2 = q))).map Prod.fst =
      if 0 < q then anns.filter (fun r => decide (recScore sl r = q)) else [] := by
  induction anns with
  | nil =>
    simp only [scoredOf, List.filterMap_nil, List.filter_nil, List.map_nil]
    split <;> rfl
  | cons a as ih =>
    simp only [scoredOf, List.filterMap_cons] at ih ⊢
    by_cases hqp : 0 < q
    · simp only [if_pos hqp] at ih ⊢
      by_cases hs : 0 < recScore sl a
      · simp only [if_pos hs, List.filter_cons]
        by_cases hq : recScore sl a = q
        · simp [hq, ih]
        · simp [hq, ih]
      · simp only [if_neg hs, List.filter_cons]
        have hq : ¬ recScore sl a = q := fun h => hs (h ▸ hqp)
        simp [hq, ih]
    · simp only [if_neg hqp] at ih ⊢
      by_cases hs : 0 < recScore sl a
      · simp only [if_pos hs, List.filter_cons]
        have hq : ¬ recScore sl a = q := fun h => hqp (h ▸ hs)
        simp [hq, ih]
      · simp only [if_neg hs]
        exact ih

theorem mem_searchAndRank (anns : List Rec) (searchText : Str) (r : Rec)
    (hr : r ∈ anns) (hpos : 0 < recScore (stripStr (lowerStr searchText)) r) :
    r ∈ searchAndRankByText anns searchText := by
  unfold searchAndRankByText
  by_cases hsl : stripStr (lowerStr searchText) = []
  · simp only [hsl, if_pos rfl]
    exact hr
  · simp only [if_neg hsl]
    refine List.mem_map.mpr ⟨(r, recScore (stripStr (lowerStr searchText)) r), ?_, rfl⟩
    refine (sortDesc_perm _).mem_iff.mpr ?_
    simp only [scoredOf, List.mem_filterMap]
    exact ⟨r, hr, by rw [if_pos hpos]⟩

theorem getAll_ok (c : Client) (l : List Rec) (hc : c.initialized = true)
    (hf : c.fetched = .ok l) (hl : l ≠ []) :
    (getAllAnnouncements c).announcements = l := by
  unfold getAllAnnouncements
  rw [hc, hf]
  cases l with
  | nil => exact absurd rfl hl
  | cons x xs => rfl

theorem multiCount_go (combined title : Str) (kws : List Str) (init : ℚ) :
    kws.foldl
      (fun acc k =>
        acc + (if hasSub combined k then
                 1 + (if hasSub title k then (1 : ℚ) / 2 else 0)
               else 0)) init
      = init + specMultiCount combined title kws := by
  induction kws generalizing init with
  | nil => simp [specMultiCount]
  | cons k ks ih =>
    simp only [List.foldl_cons, specMultiCount, List.map_cons, List.sum_cons] at *
    rw [ih, add_assoc]

theorem multiKeywordCount_eq_spec (combined title : Str) (kws : List Str) :
    multiKeywordCount combined title kws = specMultiCount combined title kws := by
  unfold multiKeywordCount
  rw [multiCount_go, zero_add]

/-- Claim C6: when the original phrase is a substring of the combined text,
the score is exactly 100, or 150 when the phrase also occurs in the title;
the other tiers contribute nothing (the tiers are mutually exclusive, first
match wins). -/
theorem c6_exactPhraseTier (combined title orig clean : Str) (kws : List Str)
    (h : hasSub combined orig = true) :
    calcRelevanceScore combined title orig clean kws =
      if hasSub title orig then 150 else 100 := by
  unfold calcRelevanceScore
  simp [h]

theorem c6_exactPhraseTier_witness :
    hasSub (strL "lemonade sale sierra") (strL "lemonade") = true
    ∧ calcRelevanceScore (strL "lemonade sale sierra") (strL "lemonade sale")
        (strL "lemonade") (strL "lemonade") [strL "lemonade"] =
        if hasSub (strL "lemonade sale") (strL "lemonade") then 150 else 100 :=
  ⟨by decide, c6_exactPhraseTier _ _ _ _ _ (by decide)⟩

/-- Claim C4: in the multi-keyword tier (tiers 1-2 did not match, at least 2
keywords) the fractional match count is 1 per keyword in the combined text
plus 0.5 per such keyword also in the title, and the score is
`60 + 10*(count - 2)` when the count reaches 2, else 0. -/
theorem c4_multiKeywordTier (combined title orig clean : Str) (kws : List Str)
    (h1 : hasSub combined orig = false)
    (h2 : clean = [] ∨ hasSub combined clean = false)
    (h3 : 2 ≤ kws.length) :
    calcRelevanceScore combined title orig clean kws =
      specMultiScore combined title kws := by
  have h3' : 1 < kws.length := h3
  unfold calcRelevanceScore
  rw [if_neg (by simp [h1])]
  rw [if_neg (by rcases h2 with h2 | h2 <;> simp [h2])]
  rw [if_pos h3']
  rw [multiKeywordCount_eq_spec]
  unfold specMultiScore
  by_cases hc : 2 ≤ specMultiCount combined title kws
  · rw [if_pos hc, if_pos hc]; ring
  · rw [if_neg hc, if_neg hc]

theorem c4_multiKeywordTier_witness :
    hasSub (strL "alpha beta") (strL "gamma") = false
    ∧ (strL "gamma" = ([] : Str) ∨ hasSub (strL "alpha beta") (strL "gamma") = false)
    ∧ 2 ≤ [strL "alpha", strL "beta"].length
    ∧ calcRelevanceScore (strL "alpha beta") (strL "alpha") (strL "gamma")
        (strL "gamma") [strL "alpha", strL "beta"] =
        specMultiScore (strL "alpha beta") (strL "alpha") [strL "alpha", strL "beta"] :=
  ⟨by decide, Or.inr (by decide), by decide,
   c4_multiKeywordTier _ _ _ _ _ (by decide) (Or.inr (by decide)) (by decide)⟩

/-- Claim C2 (counterexample): with a phrase that strips to empty the text
stage returns the whole candidate list (the record is "matched"), and the
scorer called with an empty phrase scores 150, not 0 — the empty phrase is
treated as contained in every text. -/
theorem c2_counterexample :
    searchAndRankByText [recMay] (strL "   ") = [recMay]
    ∧ ([recMay] : List Rec) ≠ []
    ∧ calcRelevanceScore (strL "school lunch") (strL "school") [] [] [] = 150
    ∧ (150 : ℚ) ≠ 0 :=
  ⟨by decide, by decide, by decide, by norm_num⟩

/-- Claim C2 (amended): when the search phrase strips to empty the text stage
returns the candidate list unchanged (no scoring happens); and when the
keyword list is empty the score is 0 only provided neither the exact-phrase
nor the clean-phrase tier matches. -/
theorem c2_emptyPhraseBehavior (anns : List Rec)
    (phrase combined title orig clean : Str)
    (h1 : stripStr (lowerStr phrase) = [])
    (h2 : hasSub combined orig = false)
    (h3 : clean = [] ∨ hasSub combined clean = false) :
    searchAndRankByText anns phrase = anns
    ∧ calcRelevanceScore combined title orig clean [] = 0 := by
  constructor
  · unfold searchAndRankByText
    simp [h1]
  · unfold calcRelevanceScore
    rw [if_neg (by simp [h2])]
    rw [if_neg (by rcases h3 with h3 | h3 <;> simp [h3])]
    rw [if_neg (by simp)]
    rfl

theorem c2_emptyPhraseBehavior_witness :
    stripStr (lowerStr (strL " ")) = []
    ∧ hasSub (strL "xyz") (strL "qq") = false
    ∧ (([] : Str) = ([] : Str) ∨ hasSub (strL "xyz") ([] : Str) = false)
    ∧ searchAndRankByText [recMay] (strL " ") = [recMay]
    ∧ calcRelevanceScore (strL "xyz") ([] : Str) (strL "qq") ([] : Str) [] = 0 := by
  refine ⟨by decide, by decide, Or.inl rfl, ?_, ?_⟩
  · exact (c2_emptyPhraseBehavior [recMay] (strL " ") (strL "xyz") ([] : Str)
      (strL "qq") ([] : Str) (by decide) (by decide) (Or.inl rfl)).1
  · exact (c2_emptyPhraseBehavior [recMay] (strL " ") (strL "xyz") ([] : Str)
      (strL "qq") ([] : Str) (by decide) (by decide) (Or.inl rfl)).2

/-- Claim C9: the sender filter returns a sublist of its input (no records
invented) and a record is kept exactly when its lower-cased `SentByUser`
contains the lower-cased sender name as a substring (no fuzzy matching). -/
theorem c9_senderFilter (anns : List Rec) (s : Str) (h : s ≠ []) :
    List.Sublist (filterBySender anns s) anns
    ∧ ∀ r, r ∈ filterBySender anns s ↔
        (r ∈ anns ∧ hasSub (lowerStr r.sentBy) (lowerStr s) = true) := by
  refine ⟨List.filter_sublist _, ?_⟩
  intro r
  simp [filterBySender, List.mem_filter]

theorem c9_senderFilter_witness :
    (strL "sierra" ≠ ([] : Str))
    ∧ (List.Sublist (filterBySender [recMay] (strL "sierra")) [recMay]
       ∧ ∀ r, r ∈ filterBySender [recMay] (strL "sierra") ↔
           (r ∈ [recMay] ∧ hasSub (lowerStr r.sentBy) (lowerStr (strL "sierra")) = true)) :=
  ⟨by decide, c9_senderFilter [recMay] (strL "sierra") (by decide)⟩

/-- Claim C10: every dictionary the pipeline returns — success, uninitialized
connection, fetch failure, and the caught-exception path — has `count` equal
to the length of its `announcements` list. -/
theorem c10_countInvariant (c : Client) (st sn dq : Option Str) (now : DateTime) :
    (combinedFilter c st sn dq now).count =
      (combinedFilter c st sn dq now).announcements.length
    ∧ (getAllAnnouncements c).count =
      (getAllAnnouncements c).announcements.length := by
  constructor
  · unfold combinedFilter
    split
    · rfl
    · dsimp only
      split
      · rfl
      · rfl
  · unfold getAllAnnouncements
    split
    · rfl
    · split <;> rfl

/-- Claim C1 (counterexample): on the unparseable query "nonsense query xyz"
the pipeline returns the working set unchanged (count 1, no error field),
not zero results with an error. -/
theorem c1_counterexample :
    (combinedFilter clientOne none none (some nonsenseQ) now2025).count = 1
    ∧ (combinedFilter clientOne none none (some nonsenseQ) now2025).error = none
    ∧ (combinedFilter clientOne none none (some nonsenseQ) now2025).announcements
        = [recMay] :=
  ⟨by decide, by decide, by decide⟩

/-- Claim C1 (amended): when no parsing stage recognizes the date query
(no month name, no range, no single date), `_filter_by_date` returns the
working set unchanged (a warning is only logged), and the pipeline proceeds:
it reports no error and returns the unfiltered working set with its count. -/
theorem c1_unparsedDateQueryIgnored (anns all : List Rec) (q : Str)
    (now : DateTime) (c : Client)
    (h0 : stripStr q ≠ [])
    (h1 : firstMonthIn (stripStr (lowerStr (stripStr q))) = none)
    (h2 : (extractDateTimeRange (stripStr (lowerStr (stripStr q))) now).1 = none
          ∨ (extractDateTimeRange (stripStr (lowerStr (stripStr q))) now).2 = none)
    (h3 : parseDateTime (stripStr (lowerStr (stripStr q))) now = none)
    (hc : c.initialized = true) (hf : c.fetched = .ok all) (hall : all ≠ []) :
    filterByDate anns (stripStr q) now = .ok anns
    ∧ (combinedFilter c none none (some q) now).error = none
    ∧ (combinedFilter c none none (some q) now).announcements = all
    ∧ (combinedFilter c none none (some q) now).count = all.length := by
  have hfd : ∀ l : List Rec, filterByDate l (stripStr q) now = .ok l := by
    intro l
    simp only [filterByDate, h1]
    rcases hE : extractDateTimeRange (stripStr (lowerStr (stripStr q))) now with ⟨a, b⟩
    rw [hE] at h2
    cases a with
    | some s =>
      cases b with
      | some e => rcases h2 with h2 | h2 <;> simp at h2
      | none => simp [h3]
    | none => cases b <;> simp [h3]
  have hq : q ≠ [] := by
    intro hq0
    rw [hq0] at h0
    exact h0 rfl
  have hget : (getAllAnnouncements c).announcements = all := getAll_ok c all hc hf hall
  have htr : truthyS (some (stripStr q)) = true := by
    cases hsq : stripStr q with
    | nil => exact absurd hsq h0
    | cons x xs => rfl
  refine ⟨hfd anns, ?_⟩
  have hie : (stripStr q).isEmpty = false := by
    cases hsq : stripStr q with
    | nil => exact absurd hsq h0
    | cons x xs => rfl
  have hok := hfd all
  simp [combinedFilter, hc, cleanupArg, if_neg hq, truthyS, hget, hie, hok]

theorem c1_unparsedDateQueryIgnored_witness :
    stripStr nonsenseQ ≠ []
    ∧ firstMonthIn (stripStr (lowerStr (stripStr nonsenseQ))) = none
    ∧ parseDateTime (stripStr (lowerStr (stripStr nonsenseQ))) now2025 = none
    ∧ (filterByDate [recMay] (stripStr nonsenseQ) now2025 = .ok [recMay]
       ∧ (combinedFilter clientOne none none (some nonsenseQ) now2025).error = none
       ∧ (combinedFilter clientOne none none (some nonsenseQ) now2025).announcements
           = [recMay]
       ∧ (combinedFilter clientOne none none (some nonsenseQ) now2025).count
           = [recMay].length) :=
  ⟨by decide, by decide, by decide,
   c1_unparsedDateQueryIgnored [recMay] [recMay] nonsenseQ now2025 clientOne
     (by decide) (by decide) (Or.inl (by decide)) (by decide) rfl rfl (by decide)⟩

/-- Claim C3 (code bug): `_parse_sent_time` parses "2025-05-07 14:29" to a
timezone-naive value, and `_filter_by_date_range` — whose bounds are always
made timezone-aware — then raises `TypeError` instead of assuming UTC: the
whole pipeline invocation aborts with an error and count 0, although the
value read as UTC lies inside the range (third conjunct). -/
theorem c3_naiveSentTimeRaises :
    parseSentTime (strL "2025-05-07 14:29") =
      some ⟨2025, 5, 7, 14, 29, 0, 0, none⟩
    ∧ filterByDateRange [recNaive] mayStartUTC juneStartUTC = .error naiveAwareErr
    ∧ inRangePy mayStartUTC juneStartUTC ⟨2025, 5, 7, 14, 29, 0, 0, some 0⟩ = .ok true
    ∧ (combinedFilter clientNaive none none (some (strL "May")) now2025).error =
        some (strL "Error filtering announcements: " ++ naiveAwareErr)
    ∧ (combinedFilter clientNaive none none (some (strL "May")) now2025).count = 0 :=
  ⟨by decide, by decide, by decide, by decide, by decide⟩

/-- Claim C5 (counterexample): the query "april or january" contains the full
month name "april", yet the filter applies the January range (January is
checked first), keeping a January record that the April range would drop. -/
theorem c5_counterexample :
    hasSub (stripStr (lowerStr (strL "april or january"))) (strL "april") = true
    ∧ filterByDate [recJan] (strL "april or january") now2025 = .ok [recJan]
    ∧ filterByMonth [recJan] 4 2025 = .ok [] :=
  ⟨by decide, by decide, by decide⟩

/-- Claim C5 (amended): when the earliest month (in January..December check
order) whose full name occurs in the query is `m`, the filter applies exactly
the range from the first day of month `m` of the current year to the first
day of the next month (December wrapping to January 1 of the next year),
regardless of any other date syntax in the query — the month check precedes
the range and single-date parsers. -/
theorem c5_monthNameRange (anns : List Rec) (q : Str) (now : DateTime) (m : Nat)
    (h : firstMonthIn (stripStr (lowerStr q)) = some m) :
    filterByDate anns q now =
      filterByDateRange anns ⟨now.year, m, 1, 0, 0, 0, 0, some 0⟩
        (if m = 12 then ⟨now.year + 1, 1, 1, 0, 0, 0, 0, some 0⟩
         else ⟨now.year, m + 1, 1, 0, 0, 0, 0, some 0⟩) := by
  simp only [filterByDate, h]
  rfl

theorem c5_monthNameRange_witness :
    firstMonthIn (stripStr (lowerStr (strL "last week in May"))) = some 5
    ∧ filterByDate [recMay] (strL "last week in May") now2025 =
        filterByDateRange [recMay] ⟨now2025.year, 5, 1, 0, 0, 0, 0, some 0⟩
          (if 5 = 12 then ⟨now2025.year + 1, 1, 1, 0, 0, 0, 0, some 0⟩
           else ⟨now2025.year, 5 + 1, 1, 0, 0, 0, 0, some 0⟩) :=
  ⟨by decide, c5_monthNameRange [recMay] (strL "last week in May") now2025 5 (by decide)⟩

/-- Claim C8: for a non-empty (stripped) phrase the text stage returns
exactly the records scoring above 0, in descending score order, and the sort
is stable — for every score value the kept records appear in their input
order (the per-score filter of the output equals that of the input). -/
theorem c8_textStageRanking (anns : List Rec) (searchText : Str)
    (h : stripStr (lowerStr searchText) ≠ []) :
    (searchAndRankByText anns searchText).Pairwise
      (fun a b => recScore (stripStr (lowerStr searchText)) b ≤
                  recScore (stripStr (lowerStr searchText)) a)
    ∧ ∀ q : ℚ,
        (searchAndRankByText anns searchText).filter
            (fun r => decide (recScore (stripStr (lowerStr searchText)) r = q)) =
          if 0 < q then
            anns.filter
              (fun r => decide (recScore (stripStr (lowerStr searchText)) r = q))
          else [] := by
  have hres : searchAndRankByText anns searchText =
      (sortDesc (scoredOf anns (stripStr (lowerStr searchText)))).map Prod.fst := by
    unfold searchAndRankByText
    rw [if_neg h]
  have hinv : ∀ p ∈ sortDesc (scoredOf anns (stripStr (lowerStr searchText))),
      p.2 = recScore (stripStr (lowerStr searchText)) p.1 :=
    fun p hp =>
      (scoredOf_snd anns (stripStr (lowerStr searchText)) p
        ((sortDesc_perm _).mem_iff.mp hp)).1
  constructor
  · rw [hres, List.pairwise_map]
    refine (sortDesc_sorted _).imp_of_mem ?_
    intro a b ha hb hab
    rw [← hinv a ha, ← hinv b hb]
    exact hab
  · intro q
    rw [hres, map_fst_filter _ q _ hinv, filter_sortDesc]
    exact scored_filter_map_fst anns (stripStr (lowerStr searchText)) q

theorem c8_textStageRanking_witness :
    stripStr (lowerStr (strL "lemonade")) ≠ []
    ∧ ((searchAndRankByText [recMay, recJan] (strL "lemonade")).Pairwise
        (fun a b => recScore (stripStr (lowerStr (strL "lemonade"))) b ≤
                    recScore (stripStr (lowerStr (strL "lemonade"))) a)
       ∧ ∀ q : ℚ,
          (searchAndRankByText [recMay, recJan] (strL "lemonade")).filter
              (fun r => decide (recScore (stripStr (lowerStr (strL "lemonade"))) r = q)) =
            if 0 < q then
              [recMay, recJan].filter
                (fun r => decide (recScore (stripStr (lowerStr (strL "lemonade"))) r = q))
            else []) :=
  ⟨by decide, c8_textStageRanking [recMay, recJan] (strL "lemonade") (by decide)⟩

/-- Claim C7: for every pipeline invocation where a text search is supplied,
at least one of the sender/date filters was applied, and those stages left
the working set empty, the text search is applied to the full original
record set instead; and whenever the phrase scores positively on some record
of the corpus, the final result is non-empty. -/
theorem c7_fallbackToFullCorpus (c : Client) (all : List Rec)
    (search0 sender0 dateQuery0 : Option Str) (stx : Str) (now : DateTime)
    (hc : c.initialized = true) (hf : c.fetched = .ok all) (hall : all ≠ [])
    (hst : cleanupArg search0 = some stx) (hst2 : stx ≠ [])
    (happlied : truthyS (cleanupArg sender0) = true
                ∨ truthyS (cleanupArg dateQuery0) = true)
    (hempty :
      (if truthyS (cleanupArg dateQuery0) = true then
         filterByDate
           (if truthyS (cleanupArg sender0) = true then
              filterBySender all ((cleanupArg sender0).getD [])
            else all)
           ((cleanupArg dateQuery0).getD []) now
       else Except.ok
         (if truthyS (cleanupArg sender0) = true then
            filterBySender all ((cleanupArg sender0).getD [])
          else all)) = Except.ok []) :
    (combinedFilter c search0 sender0 dateQuery0 now).announcements =
      searchAndRankByText all stx
    ∧ ∀ r ∈ all, 0 < recScore (stripStr (lowerStr stx)) r →
        (combinedFilter c search0 sender0 dateQuery0 now).announcements ≠ [] := by
  have hget : (getAllAnnouncements c).announcements = all := getAll_ok c all hc hf hall
  have htS : truthyS (some stx) = true := by
    cases hx : stx with
    | nil => exact absurd hx hst2
    | cons a l => rfl
  have hieA : all.isEmpty = false := by
    cases hx : all with
    | nil => exact absurd hx hall
    | cons a l => rfl
  have hmain : (combinedFilter c search0 sender0 dateQuery0 now).announcements =
      searchAndRankByText all stx := by
    unfold combinedFilter
    simp only [hc, Bool.not_true, Bool.false_eq_true, if_false, hget]
    rw [hempty]
    rcases happlied with hap | hap <;> simp [hst, htS, hieA, hap]
  refine ⟨hmain, ?_⟩
  intro r hr hpos hempty2
  rw [hmain] at hempty2
  have hmem := mem_searchAndRank all stx r hr hpos
  rw [hempty2] at hmem
  exact (List.not_mem_nil r) hmem

theorem c7_fallbackToFullCorpus_witness :
    (if truthyS (cleanupArg (some (strL "January"))) = true then
       filterByDate
         (if truthyS (cleanupArg (none : Option Str)) = true then
            filterBySender [recMay] ((cleanupArg (none : Option Str)).getD [])
          else [recMay])
         ((cleanupArg (some (strL "January"))).getD []) now2025
     else Except.ok
       (if truthyS (cleanupArg (none : Option Str)) = true then
          filterBySender [recMay] ((cleanupArg (none : Option Str)).getD [])
        else [recMay])) = Except.ok []
    ∧ ((combinedFilter clientOne (some (strL "lemonade")) none
          (some (strL "January")) now2025).announcements =
          searchAndRankByText [recMay] (strL "lemonade")
       ∧ ∀ r ∈ [recMay], 0 < recScore (stripStr (lowerStr (strL "lemonade"))) r →
          (combinedFilter clientOne (some (strL "lemonade")) none
            (some (strL "January")) now2025).announcements ≠ []) :=
  ⟨by decide,
   c7_fallbackToFullCorpus clientOne [recMay] (some (strL "lemonade")) none
     (some (strL "January")) (strL "lemonade") now2025
     rfl rfl (by decide) (by decide) (by decide) (Or.inr (by decide))
     (by decide)⟩
